import Mathlib

/-!
Verification development for the TradingView optimiser backend.

The embedding below translates the relevant parts of the repository into
Lean definitions:

* `src/backend/app/schemas.py` — metric enumeration, metric metadata table,
  comparator enumeration, configuration records, trial-result payload.
* `src/backend/app/main.py` — the objective builder
  (`_extract_metric_value`, `_evaluate_filters`, `_evaluate_trial`),
  best-snapshot maintenance (`_update_best_snapshot`), the message frames the
  session emits, the wait-for-result loop (`_wait_for_trial_result`), the
  optimisation loop (`_optimise`) and the session driver (`run` together with
  `_send_completion`).
* `src/opt_server.py` — the multi-objective Pareto-front maintenance
  (`MultiObjectiveOptimizer.update_pareto_front`, `_dominates`,
  `scalarize_objectives`) and the parameter encode/decode pair
  (`handle_parameter_types`, `reverse_parameter_encoding`).

Python floats are modelled as exact rationals (`ℚ`); Python dictionaries with
string keys either as `String → Option α` (lookup maps) or as association
lists (insertion-ordered dictionaries being traversed); Python exceptions as
`Option`/explicit outcome values.
-/

/-! ### Python-semantics helpers -/

/-- Python `int(x)` applied to a float: truncation toward zero. -/
def pyInt (q : ℚ) : ℤ := if 0 ≤ q then ⌊q⌋ else ⌈q⌉

/-- Python `round(x)` applied to a float: round half to even. -/
def pyRound (q : ℚ) : ℤ :=
  let f := ⌊q⌋
  let r := q - f
  if r < 1/2 then f
  else if 1/2 < r then f + 1
  else if f % 2 = 0 then f else f + 1

/-- `np.clip(x, lo, hi)`: `min (max x lo) hi` (the maximum is applied first). -/
def npClip (x lo hi : ℚ) : ℚ := min (max x lo) hi

/-- Python `a or b` on an optional float: `None` and `0.0` are falsy, so the
second operand is returned whenever the first is absent or zero. -/
def pyOrQ (a b : Option ℚ) : Option ℚ :=
  match a with
  | none => b
  | some v => if v = 0 then b else some v

/-- Python list indexing `l[i]`: non-negative indices from the front, negative
indices from the back, `IndexError` (here `none`) when out of range. -/
def pyIndex {α : Type} (l : List α) (i : ℤ) : Option α :=
  if 0 ≤ i then l.get? i.toNat
  else if 0 ≤ (l.length : ℤ) + i then l.get? ((l.length : ℤ) + i).toNat
  else none

/-! ### `schemas.py` -/

/-- `StrategyParameterType` (schemas.py). -/
inductive StrategyParameterType
  | int
  | float
  | bool
  | string
  | source
  | resolution
deriving DecidableEq

/-- `StrategyMetric` (schemas.py). -/
inductive StrategyMetric
  | netProfit
  | profitFactor
  | sharpe
  | sortino
  | maxDdPct
  | winRate
  | trades
  | drawdown
  | custom
deriving DecidableEq

/-- The `str` value of each `StrategyMetric` member. -/
def StrategyMetric.value : StrategyMetric → String
  | .netProfit => "net-profit"
  | .profitFactor => "profit-factor"
  | .sharpe => "sharpe"
  | .sortino => "sortino"
  | .maxDdPct => "max-dd-pct"
  | .winRate => "win-rate"
  | .trades => "trades"
  | .drawdown => "drawdown"
  | .custom => "custom"

/-- `MetricInfo` (schemas.py): metadata for a strategy metric. -/
structure MetricInfo where
  property_key : String
  label : String
deriving DecidableEq

/-- The `METRIC_INFO` dictionary (schemas.py); it has an entry for every
member of the enumeration, modelled as a total map into `Option`. -/
def METRIC_INFO : StrategyMetric → Option MetricInfo
  | .netProfit => some ⟨"netProfit", "Net Profit"⟩
  | .profitFactor => some ⟨"profitFactor", "Profit Factor"⟩
  | .sharpe => some ⟨"sharpe", "Sharpe Ratio"⟩
  | .sortino => some ⟨"sortino", "Sortino Ratio"⟩
  | .maxDdPct => some ⟨"maxDrawdownPct", "Max Drawdown %"⟩
  | .winRate => some ⟨"winRatePct", "Win Rate %"⟩
  | .trades => some ⟨"numberOfTrades", "Number of Trades"⟩
  | .drawdown => some ⟨"maxDrawdownPct", "Max Drawdown %"⟩
  | .custom => some ⟨"customMetric", "Custom Metric"⟩

/-- `FilterComparator` (schemas.py). -/
inductive FilterComparator
  | gte
  | lte
  | gt
  | lt
  | eq
deriving DecidableEq

/-- The `str` value of each comparator. -/
def FilterComparator.value : FilterComparator → String
  | .gte => ">="
  | .lte => "<="
  | .gt => ">"
  | .lt => "<"
  | .eq => "="

/-- `ParameterRange` (schemas.py). Pydantic validates `min < max` at parse
time; that validation is carried as a hypothesis where a claim needs it. -/
structure ParameterRange where
  min : ℚ
  max : ℚ
  step : Option ℚ

/-- `ParameterConfig` (schemas.py). -/
structure ParameterConfig where
  param_id : String
  label : Option String
  type : StrategyParameterType
  enabled : Bool
  range : ParameterRange

/-- `FilterConfig` (schemas.py). -/
structure FilterConfig where
  metric : StrategyMetric
  comparator : FilterComparator
  value : ℚ

/-- `OptimisationSettings` (schemas.py). Pydantic validates
`0 < trials < 5001`. -/
structure OptimisationSettings where
  metric : StrategyMetric
  trials : ℕ
  use_custom_range : Bool
  start_date : Option String
  end_date : Option String
  filters : List FilterConfig

/-- `OptimisationConfig` (schemas.py). -/
structure OptimisationConfig where
  strategy_id : String
  params : List ParameterConfig
  settings : OptimisationSettings

/-- `TrialResultPayload` (schemas.py): the metric bag a trial result carries.
The `metrics` dictionary is modelled as a lookup map. -/
structure TrialResultPayload where
  metrics : String → Option ℚ
  passed_filters : Option Bool

/-! ### `main.py` — objective builder -/

/-- `PENALTY_SCORE` (main.py): score assigned to trials that fail filters or
lack required metrics (`-1e9`). -/
def PENALTY_SCORE : ℚ := -1000000000

/-- `_get_metric_info` (main.py): dictionary lookup with a fallback built
from the metric id (the table is total, so the fallback is never taken). -/
def get_metric_info (metric : StrategyMetric) : MetricInfo :=
  (METRIC_INFO metric).getD ⟨metric.value, metric.value⟩

/-- Numeric rendering used inside failing-filter reason strings
(`_format_metric_value` in main.py formats with `%.3g` / trimmed `%.2f`).
The spec (§9) declares the exact rendering implementation latitude and no
claim inspects these characters, so the embedding renders the exact
rational instead of reproducing decimal float formatting. -/
def format_metric_value (value : ℚ) : String := toString value

/-- `OptimisationSession._compare` (main.py). -/
def applyComparator (left right : ℚ) : FilterComparator → Bool
  | .gte => decide (left ≥ right)
  | .lte => decide (left ≤ right)
  | .gt => decide (left > right)
  | .lt => decide (left < right)
  | .eq => decide (left = right)

/-- `OptimisationSession._extract_metric_value` (main.py):
`payload.metrics.get(camelCase key) or payload.metrics.get(raw metric id)`,
with Python `or` falling through on `None` and on `0.0`. -/
def extract_metric_value (cfg : OptimisationConfig) (payload : TrialResultPayload) : Option ℚ :=
  let metric_info := get_metric_info cfg.settings.metric
  pyOrQ (payload.metrics metric_info.property_key) (payload.metrics cfg.settings.metric.value)

/-- The reason `_evaluate_filters` (main.py) records for one filter:
`none` when the filter passes. -/
def filter_reason (payload : TrialResultPayload) (flt : FilterConfig) : Option String :=
  let info := get_metric_info flt.metric
  match payload.metrics info.property_key with
  | none => some (info.label ++ " unavailable for this trial")
  | some metric_value =>
    if applyComparator metric_value flt.value flt.comparator then none
    else some (info.label ++ " (" ++ format_metric_value metric_value ++ ") fails "
        ++ flt.comparator.value ++ " " ++ format_metric_value flt.value)

/-- `OptimisationSession._evaluate_filters` (main.py): collect the reasons of
all configured filters; the trial passes iff no reason was recorded. -/
def evaluate_filters (cfg : OptimisationConfig) (payload : TrialResultPayload) :
    Bool × List String :=
  let reasons := cfg.settings.filters.filterMap (filter_reason payload)
  (reasons.isEmpty, reasons)

/-- `TrialEvaluation` (main.py): result of evaluating a single trial against
filters. -/
structure TrialEvaluation where
  metric_value : Option ℚ
  filters_passed : Bool
  filter_reasons : List String
  objective : ℚ

/-- `OptimisationSession._evaluate_trial` (main.py). -/
def evaluate_trial (cfg : OptimisationConfig) (payload : TrialResultPayload) : TrialEvaluation :=
  let metric_value := extract_metric_value cfg payload
  let fp := evaluate_filters cfg payload
  match metric_value with
  | none =>
    { metric_value := none
      filters_passed := false
      filter_reasons := [(get_metric_info cfg.settings.metric).label ++ " unavailable for this trial"]
      objective := PENALTY_SCORE }
  | some v =>
    { metric_value := some v
      filters_passed := fp.1
      filter_reasons := fp.2
      objective := if fp.1 then v else PENALTY_SCORE }

/-- `BestSnapshot` (main.py). -/
structure BestSnapshot where
  metric : ℚ
  trial : ℕ
  params : List (String × ℚ)
  metrics : String → Option ℚ

/-- `OptimisationSession._update_best_snapshot` (main.py): replace the best
snapshot when the trial passed its filters, has a metric value, and either no
best exists yet (`not self.best_snapshot`; a set snapshot is a non-empty dict,
hence truthy) or the raw metric value strictly exceeds the current best. -/
def update_best_snapshot (best : Option BestSnapshot) (trialNumber : ℕ)
    (params : List (String × ℚ)) (payload : TrialResultPayload)
    (ev : TrialEvaluation) : Option BestSnapshot :=
  match ev.metric_value, ev.filters_passed with
  | none, _ => best
  | some _, false => best
  | some mv, true =>
    match best with
    | none => some ⟨mv, trialNumber, params, payload.metrics⟩
    | some b =>
      if b.metric < mv then some ⟨mv, trialNumber, params, payload.metrics⟩ else best

/-! ### `main.py` — session model

The WebSocket session is modelled as a deterministic interpreter over the
inputs the code reacts to: the outcome of the start phase, an oracle for
whether each `study.ask` call raises (`askFail`), an oracle for the parameter
values each successful ask proposes (`proposals`; Optuna numbers trials
densely from 0, one per successful ask), and the finite list of inbound
client messages.  Outbound frames are recorded in order. -/

/-- One outbound WebSocket frame (the JSON payloads of `main.py`'s
`send_json` calls, field for field). -/
inductive OutFrame
  | status (message : String)
  | error (message : String)
  | trialRequest (trial : ℕ) (params : List (String × ℚ))
  | trialComplete (trial : ℕ) (params : List (String × ℚ))
      (metrics : String → Option ℚ) (passedFilters : Bool)
      (filterReasons : Option (List String)) (objective : ℚ)
      (completed total : ℕ) (best : Option BestSnapshot)
  | complete (reason : String) (best : Option BestSnapshot)

/-- The discriminant of a frame (its `type` field). -/
inductive FrameKind
  | status
  | error
  | trialRequest
  | trialComplete
  | complete
deriving DecidableEq

/-- The `type` of a frame. -/
def OutFrame.kind : OutFrame → FrameKind
  | .status _ => .status
  | .error _ => .error
  | .trialRequest _ _ => .trialRequest
  | .trialComplete _ _ _ _ _ _ _ _ _ => .trialComplete
  | .complete _ _ => .complete

/-- Whether a frame is an `error` frame. -/
def isErrorFrame (f : OutFrame) : Bool := f.kind = FrameKind.error

/-- Whether a frame is a terminal `complete` frame. -/
def isCompleteFrame (f : OutFrame) : Bool := f.kind = FrameKind.complete

/-- The reasons of the `complete` frames of a trace, in order. -/
def completeReasons (frames : List OutFrame) : List String :=
  frames.filterMap fun f =>
    match f with
    | .complete reason _ => some reason
    | _ => none

/-- The `filterReasons` field of the `trial-complete` frame
(`_send_trial_complete`, main.py): `evaluation["filter_reasons"] or None`,
Python `or` mapping the empty list to `null`. -/
def sendTrialCompleteFrame (trialNumber : ℕ) (params : List (String × ℚ))
    (payload : TrialResultPayload) (ev : TrialEvaluation)
    (completed total : ℕ) (best : Option BestSnapshot) : OutFrame :=
  .trialComplete trialNumber params payload.metrics ev.filters_passed
    (if ev.filter_reasons.isEmpty then none else some ev.filter_reasons)
    ev.objective completed total best

/-- One inbound client message after the start phase, as
`_receive_json_object` / `_receive_message` classify it.  `badMsg` stands for
a payload that is not a JSON object or carries an unknown `type` (both raise
`ValueError`); `disconnect` for `WebSocketDisconnect` surfacing from the
receive call. Trial numbers arrive as arbitrary integers. -/
inductive InMsg
  | trialResult (trial : ℤ) (payload : TrialResultPayload)
  | stopMsg
  | startMsg
  | badMsg
  | disconnect

/-- How `_wait_for_trial_result` (main.py) ends: with the matching payload
and the messages not yet consumed, by `OptimisationInterrupted` (stop message
or disconnect), by an uncaught `ValueError` (`start` again or a malformed
message), or blocked forever because the client sends nothing further.  Each
outcome carries the session's `stop_requested` flag as the handler leaves
it. -/
inductive WaitOutcome
  | result (payload : TrialResultPayload) (rest : List InMsg) (stop : Bool)
  | interrupted (rest : List InMsg) (stop : Bool)
  | exn (rest : List InMsg) (stop : Bool)
  | hang (stop : Bool)

/-- `OptimisationSession._wait_for_trial_result` (main.py): loop until the
trial result whose number matches arrives; a mismatched trial number is only
logged and the wait continues; a stop message or a disconnect sets
`stop_requested` and raises `OptimisationInterrupted`; a second `start` or a
malformed message raises `ValueError`, leaving `stop_requested` unchanged. -/
def waitForTrialResult (trialNumber : ℕ) : List InMsg → Bool → WaitOutcome
  | [], stop => .hang stop
  | .trialResult m p :: rest, stop =>
    if m = (trialNumber : ℤ) then .result p rest stop
    else waitForTrialResult trialNumber rest stop
  | .stopMsg :: rest, _ => .interrupted rest true
  | .startMsg :: rest, stop => .exn rest stop
  | .badMsg :: rest, stop => .exn rest stop
  | .disconnect :: rest, _ => .interrupted rest true

/-- The session state fields the claims are about (main.py's
`OptimisationSession` attributes mutated by the loop). -/
structure SessState where
  stop_requested : Bool
  completed : ℕ
  best : Option BestSnapshot

/-- The state at session construction. -/
def initState : SessState := ⟨false, 0, none⟩

/-- How the optimisation loop ended: normally (condition false, ask failure
or `OptimisationInterrupted`), by an uncaught `ValueError`, or blocked
forever awaiting a message. -/
inductive LoopExit
  | normal
  | exn
  | hang
deriving DecidableEq

/-- An Optuna distribution built by `_build_distributions` (main.py). -/
inductive Distribution
  | intDist (low high step : ℤ)
  | floatDist (low high : ℚ) (step : Option ℚ)
deriving DecidableEq

/-- `OptimisationSession._build_distributions` (main.py): one distribution
per enabled `int`/`float` parameter; other parameter types are skipped.
`int(param.range.step or 1)` applies Python `or` (`None` and `0.0` fall
through to `1`) before truncation.  The dict is modelled as an association
list; only emptiness and membership matter to the claims. -/
def build_distributions (cfg : OptimisationConfig) : List (String × Distribution) :=
  cfg.params.filterMap fun p =>
    if p.enabled = false then none
    else
      match p.type with
      | .int =>
        let step : ℚ :=
          match p.range.step with
          | none => 1
          | some s => if s = 0 then 1 else s
        some (p.param_id, .intDist (pyInt p.range.min) (pyInt p.range.max) (pyInt step))
      | .float => some (p.param_id, .floatDist p.range.min p.range.max p.range.step)
      | _ => none

/-- `OptimisationSession._optimise` (main.py), driven by fuel (the loop runs
at most `trials` iterations because `completed` grows by one per iteration
and the guard requires `completed < trials`; `runSessionFull` supplies
exactly that much fuel).  Returns the frames emitted, the final state and how
the loop ended.  `askCount` is the number of successful `study.ask` calls so
far, which is the number Optuna gives the next trial. -/
def optimiseLoop (cfg : OptimisationConfig) (askFail : ℕ → Bool)
    (proposals : ℕ → List (String × ℚ)) :
    ℕ → ℕ → List InMsg → SessState → List OutFrame × SessState × LoopExit
  | 0, _, _, st => ([], st, .normal)
  | fuel + 1, askCount, msgs, st =>
    if st.completed < cfg.settings.trials ∧ st.stop_requested = false then
      if askFail askCount then
        ([.error "Failed to generate next trial."], st, .normal)
      else
        let params := proposals askCount
        let reqFrame := OutFrame.trialRequest askCount params
        match waitForTrialResult askCount msgs st.stop_requested with
        | .hang stop => ([reqFrame], { st with stop_requested := stop }, .hang)
        | .interrupted _ stop => ([reqFrame], { st with stop_requested := stop }, .normal)
        | .exn _ stop => ([reqFrame], { st with stop_requested := stop }, .exn)
        | .result p rest stop =>
          let ev := evaluate_trial cfg p
          let best' := update_best_snapshot st.best askCount params p ev
          let completed' := st.completed + 1
          let st' : SessState := ⟨stop, completed', best'⟩
          let frame := sendTrialCompleteFrame askCount params p ev completed' cfg.settings.trials best'
          let r := optimiseLoop cfg askFail proposals fuel (askCount + 1) rest st'
          (reqFrame :: frame :: r.1, r.2)

    else ([], st, .normal)

/-- How the start phase (`run` up to `_expect_start_message`, main.py) ends:
disconnect before `start`, an invalid first message (`ValueError`, whose text
is sent back as an error frame), or a validated configuration. -/
inductive StartOutcome
  | disconnected
  | invalid (message : String)
  | valid (cfg : OptimisationConfig)

/-- The observable result of a whole session run. -/
structure RunResult where
  frames : List OutFrame
  final : SessState
  exit : LoopExit
  closed : Bool

/-- `OptimisationSession.run` (main.py) end to end: accept, start phase,
status frame, `_optimise` (which first checks for an empty distribution set),
and the `finally` block `_send_completion` (reason `stopped` iff
`stop_requested`, else `finished`).  A `ValueError` escaping the loop still
reaches `_send_completion` through `finally` before propagating.  When the
loop hangs awaiting a message, no completion is ever sent and the channel
stays open (`closed = false`). -/
def runSessionFull (so : StartOutcome) (askFail : ℕ → Bool)
    (proposals : ℕ → List (String × ℚ)) (msgs : List InMsg) : RunResult :=
  match so with
  | .disconnected => ⟨[], initState, .normal, true⟩
  | .invalid m => ⟨[.error m], initState, .normal, true⟩
  | .valid cfg =>
    if (build_distributions cfg).isEmpty then
      ⟨[.status "Configuration received",
        .error "No numerical parameters available for optimisation.",
        .complete (if initState.stop_requested then "stopped" else "finished") initState.best],
       initState, .normal, true⟩
    else
      let r := optimiseLoop cfg askFail proposals cfg.settings.trials 0 msgs initState
      if r.2.2 = .hang then ⟨.status "Configuration received" :: r.1, r.2.1, .hang, false⟩
      else
        ⟨.status "Configuration received" :: r.1
            ++ [.complete (if r.2.1.stop_requested then "stopped" else "finished") r.2.1.best],
         r.2.1, r.2.2, true⟩

/-! ### `opt_server.py` — multi-objective Pareto front -/

/-- One entry of `MultiObjectiveOptimizer.pareto_front` (opt_server.py). -/
structure Solution where
  params : List (String × ℚ)
  metrics : String → Option ℚ
  scalarized_value : ℚ

/-- `MultiObjectiveOptimizer._dominates` (opt_server.py): `metrics1`
dominates `metrics2` (assuming maximization) when, over the declared target
metrics present in both bags, it is nowhere smaller and somewhere strictly
larger. -/
def dominates (target_metrics : List String) (metrics1 metrics2 : String → Option ℚ) : Bool :=
  let p := target_metrics.foldl
    (fun acc metric =>
      match metrics1 metric, metrics2 metric with
      | some v1, some v2 =>
        if v1 < v2 then (false, acc.2)
        else if v2 < v1 then (acc.1, true)
        else acc
      | _, _ => acc)
    (true, false)
  p.1 && p.2

/-- `MultiObjectiveOptimizer.scalarize_objectives` (opt_server.py): weighted
sum over the declared target metrics present in both the metric bag and the
weight table, divided by the total weight plus `1e-6`. -/
def scalarize_objectives (target_metrics : List String) (metric_weights : String → Option ℚ)
    (metrics : String → Option ℚ) : ℚ :=
  let p := target_metrics.foldl
    (fun acc metric =>
      match metrics metric, metric_weights metric with
      | some mv, some w => (acc.1 + w * mv, acc.2 + w)
      | _, _ => acc)
    (0, 0)
  p.1 / (p.2 + 1/1000000)

/-- `MultiObjectiveOptimizer.update_pareto_front` (opt_server.py): drop the
new solution if an existing one dominates it; otherwise remove the existing
solutions it dominates, append it, and when the front exceeds 20 entries keep
the best 20 by scalarized value (Python's stable descending sort, here a
stable merge sort). -/
def update_pareto_front (target_metrics : List String) (metric_weights : String → Option ℚ)
    (front : List Solution) (params : List (String × ℚ))
    (metrics : String → Option ℚ) : List Solution :=
  let solution : Solution := ⟨params, metrics, scalarize_objectives target_metrics metric_weights metrics⟩
  if front.any fun existing => dominates target_metrics existing.metrics metrics then front
  else
    let pruned := front.filter fun existing => !dominates target_metrics metrics existing.metrics
    let f2 := pruned ++ [solution]
    if 20 < f2.length then
      (f2.mergeSort fun a b => decide (b.scalarized_value ≤ a.scalarized_value)).take 20
    else f2

/-- The Pareto front reached from the optimizer's initial empty front after
an arbitrary sequence of `update_pareto_front` calls. -/
def runParetoUpdates (target_metrics : List String) (metric_weights : String → Option ℚ)
    (inputs : List (List (String × ℚ) × (String → Option ℚ))) : List Solution :=
  inputs.foldl (fun front inp => update_pareto_front target_metrics metric_weights front inp.1 inp.2) []

/-- The antichain property of a front: no element dominates another. -/
def ParetoAntichain (target_metrics : List String) (front : List Solution) : Prop :=
  front.Pairwise fun a b =>
    dominates target_metrics a.metrics b.metrics = false
    ∧ dominates target_metrics b.metrics a.metrics = false

/-! ### `opt_server.py` — typed parameter encode/decode -/

/-- A processed parameter value (`Union[float, int, str]` in
`handle_parameter_types`). -/
inductive PValue
  | num (q : ℚ)
  | str (s : String)
deriving DecidableEq

/-- Python `float(value)` on a processed value.  Conversion of a numeric
string (`float("1.5")`) is not modelled: no claim reaches it (the functions
under scrutiny only convert strings through the categorical branch), so a
string here stands for the `ValueError` path. -/
def pyFloat : PValue → Option ℚ
  | .num q => some q
  | .str _ => none

/-- The body of `handle_parameter_types` (opt_server.py) for a single
parameter.  `pbounds_global[name]` raising `KeyError` and a zero-width range
raising `ZeroDivisionError` are `none`; a clipped index outside the list
(only reachable with an empty category list) is the `IndexError` path. -/
def processParam (pbounds : String → Option (ℚ × ℚ)) (parameter_types : String → Option String)
    (categorical_mappings : String → Option (List String)) (name : String) (value : ℚ) :
    Option PValue :=
  let param_type := (parameter_types name).getD "continuous"
  if param_type = "integer" then
    match pbounds name with
    | none => none
    | some (lo, hi) => some (.num ((pyRound (npClip value lo hi) : ℤ) : ℚ))
  else if param_type = "categorical" then
    match categorical_mappings name with
    | some categories =>
      match pbounds name with
      | none => none
      | some (lo, hi) =>
        if hi - lo = 0 then none
        else
          let normalized_value := (value - lo) / (hi - lo)
          let category_index :=
            pyInt (npClip (normalized_value * categories.length) 0 ((categories.length : ℚ) - 1))
          match pyIndex categories category_index with
          | some c => some (.str c)
          | none => none
    | none => some (.num value)
  else if param_type = "ordinal" then
    match categorical_mappings name with
    | some categories =>
      match pbounds name with
      | none => none
      | some (lo, hi) =>
        if hi - lo = 0 then none
        else
          let normalized_value := (value - lo) / (hi - lo)
          let category_index :=
            pyInt (npClip (normalized_value * categories.length) 0 ((categories.length : ℚ) - 1))
          match pyIndex categories category_index with
          | some c => some (.str c)
          | none => none
    | none =>
      match pbounds name with
      | none => none
      | some (lo, hi) => some (.num ((pyRound (npClip value lo hi) : ℤ) : ℚ))
  else
    match pbounds name with
    | none => none
    | some (lo, hi) => some (.num (npClip value lo hi))

/-- `handle_parameter_types` (opt_server.py): map the raw continuous
parameter dictionary through the per-parameter decoding, entry by entry; an
exception (`none`) on any entry aborts the call. -/
def handle_parameter_types (raw_params : List (String × ℚ))
    (parameter_types : String → Option String)
    (categorical_mappings : String → Option (List String))
    (pbounds : String → Option (ℚ × ℚ)) : Option (List (String × PValue)) :=
  match raw_params with
  | [] => some []
  | nv :: rest =>
    match processParam pbounds parameter_types categorical_mappings nv.1 nv.2 with
    | none => none
    | some pv =>
      match handle_parameter_types rest parameter_types categorical_mappings pbounds with
      | none => none
      | some tl => some ((nv.1, pv) :: tl)

/-- The body of `reverse_parameter_encoding` (opt_server.py) for a single
parameter: a categorical/ordinal label maps back to
`lo + index/(len-1) * (hi-lo)` (midpoint placeholder `0.5` for a single
label; `except ValueError` midpoint `(lo+hi)/2` for a label outside the
list); everything else goes through `float(value)`. -/
def reverseParam (pbounds : String → Option (ℚ × ℚ)) (parameter_types : String → Option String)
    (categorical_mappings : String → Option (List String)) (name : String) (value : PValue) :
    Option ℚ :=
  let param_type := (parameter_types name).getD "continuous"
  if param_type = "categorical" ∨ param_type = "ordinal" then
    match categorical_mappings name, value with
    | some categories, .str s =>
      if s ∈ categories then
        let category_index := categories.indexOf s
        match pbounds name with
        | none => none
        | some (lo, hi) =>
          let normalized_value : ℚ :=
            if 1 < categories.length then (category_index : ℚ) / ((categories.length : ℚ) - 1)
            else 1/2
          some (lo + normalized_value * (hi - lo))
      else
        match pbounds name with
        | none => none
        | some (lo, hi) => some ((lo + hi) / 2)
    | _, v => pyFloat v
  else pyFloat value

/-- `reverse_parameter_encoding` (opt_server.py): map the processed
parameter dictionary back to continuous values, entry by entry; an exception
(`none`) on any entry aborts the call. -/
def reverse_parameter_encoding (processed_params : List (String × PValue))
    (parameter_types : String → Option String)
    (categorical_mappings : String → Option (List String))
    (pbounds : String → Option (ℚ × ℚ)) : Option (List (String × ℚ)) :=
  match processed_params with
  | [] => some []
  | nv :: rest =>
    match reverseParam pbounds parameter_types categorical_mappings nv.1 nv.2 with
    | none => none
    | some q =>
      match reverse_parameter_encoding rest parameter_types categorical_mappings pbounds with
      | none => none
      | some tl => some ((nv.1, q) :: tl)

/-! ### Objective-builder lemmas and claims -/

/-- A filter records no reason exactly when its metric is present (under its
camelCase property key) and the comparison holds. -/
theorem filter_reason_eq_none_iff (payload : TrialResultPayload) (flt : FilterConfig) :
    filter_reason payload flt = none ↔
      ∃ w, payload.metrics (get_metric_info flt.metric).property_key = some w
        ∧ applyComparator w flt.value flt.comparator = true := by
  unfold filter_reason
  cases h : payload.metrics (get_metric_info flt.metric).property_key with
  | none => simp [h]
  | some w =>
    by_cases hc : applyComparator w flt.value flt.comparator <;> simp [h, hc]

/-- `_evaluate_filters` passes exactly when every configured filter records
no reason. -/
theorem evaluate_filters_passed_iff (cfg : OptimisationConfig) (payload : TrialResultPayload) :
    (evaluate_filters cfg payload).1 = true ↔
      ∀ flt ∈ cfg.settings.filters, filter_reason payload flt = none := by
  simp [evaluate_filters, List.filterMap_eq_nil_iff]

/-- The evaluation's `filters_passed` and its reason list are empty
together. -/
theorem evaluate_trial_passed_iff_reasons_nil (cfg : OptimisationConfig)
    (payload : TrialResultPayload) :
    (evaluate_trial cfg payload).filters_passed = true ↔
      (evaluate_trial cfg payload).filter_reasons = [] := by
  unfold evaluate_trial
  cases h : extract_metric_value cfg payload with
  | none => simp
  | some v => simp [evaluate_filters]

/-- C10: the target metric value is accepted under two keys of
`payload.metrics`: `_extract_metric_value` returns the value stored under the
metric's camelCase property key when that key is present with a nonzero
value; otherwise it returns whatever is stored under the raw metric-id key
(the value when present, `None` when absent). -/
theorem extract_metric_value_spec (cfg : OptimisationConfig) (payload : TrialResultPayload) :
    (∀ v, payload.metrics (get_metric_info cfg.settings.metric).property_key = some v → v ≠ 0 →
      extract_metric_value cfg payload = some v)
    ∧ (payload.metrics (get_metric_info cfg.settings.metric).property_key = none
        ∨ payload.metrics (get_metric_info cfg.settings.metric).property_key = some 0 →
      extract_metric_value cfg payload = payload.metrics cfg.settings.metric.value) := by
  constructor
  · intro v hv hvne
    simp [extract_metric_value, pyOrQ, hv, hvne]
  · rintro (h | h) <;> simp [extract_metric_value, pyOrQ, h]

/-- C1: trial evaluation.  When the target metric cannot be extracted the
evaluation is the penalty record with the single unavailability reason;
otherwise `metric_value` is the extracted raw value, `filters_passed` holds
iff every configured filter's comparison passes on a present metric, a filter
whose metric is missing contributes its unavailability reason, and the
objective is the metric value when the filters pass and `PENALTY_SCORE`
otherwise. -/
theorem evaluate_trial_spec (cfg : OptimisationConfig) (payload : TrialResultPayload) :
    (extract_metric_value cfg payload = none →
      evaluate_trial cfg payload =
        ⟨none, false,
          [(get_metric_info cfg.settings.metric).label ++ " unavailable for this trial"],
          PENALTY_SCORE⟩)
    ∧ (∀ v, extract_metric_value cfg payload = some v →
        (evaluate_trial cfg payload).metric_value = some v
        ∧ ((evaluate_trial cfg payload).filters_passed = true ↔
            ∀ flt ∈ cfg.settings.filters,
              ∃ w, payload.metrics (get_metric_info flt.metric).property_key = some w
                ∧ applyComparator w flt.value flt.comparator = true)
        ∧ (∀ flt ∈ cfg.settings.filters,
            payload.metrics (get_metric_info flt.metric).property_key = none →
            (get_metric_info flt.metric).label ++ " unavailable for this trial"
              ∈ (evaluate_trial cfg payload).filter_reasons)
        ∧ (evaluate_trial cfg payload).objective =
            (if (evaluate_trial cfg payload).filters_passed = true then v else PENALTY_SCORE)) := by
  constructor
  · intro h
    simp [evaluate_trial, h]
  · intro v hv
    refine ⟨?_, ?_, ?_, ?_⟩
    · simp [evaluate_trial, hv]
    · have h1 : (evaluate_trial cfg payload).filters_passed = (evaluate_filters cfg payload).1 := by
        simp [evaluate_trial, hv]
      rw [h1, evaluate_filters_passed_iff]
      constructor
      · intro h flt hmem
        exact (filter_reason_eq_none_iff payload flt).mp (h flt hmem)
      · intro h flt hmem
        exact (filter_reason_eq_none_iff payload flt).mpr (h flt hmem)
    · intro flt hmem hnone
      have h2 : (evaluate_trial cfg payload).filter_reasons = (evaluate_filters cfg payload).2 := by
        simp [evaluate_trial, hv]
      rw [h2]
      simp only [evaluate_filters, List.mem_filterMap]
      refine ⟨flt, hmem, ?_⟩
      simp [filter_reason, hnone]
    · simp [evaluate_trial, hv]

/-- The `filterReasons` field of a `trial-complete` frame. -/
def OutFrame.filterReasonsField : OutFrame → Option (List String)
  | .trialComplete _ _ _ _ fr _ _ _ _ => fr
  | _ => none

/-- The `passedFilters` field of a `trial-complete` frame. -/
def OutFrame.passedFiltersField : OutFrame → Option Bool
  | .trialComplete _ _ _ p _ _ _ _ _ => some p
  | _ => none

/-- C9: in every `trial-complete` frame built from a trial evaluation,
`filterReasons` is `null` iff `passedFilters` is true; when `passedFilters`
is false, `filterReasons` is a non-empty list of reasons. -/
theorem trial_complete_filter_reasons_spec (cfg : OptimisationConfig)
    (payload : TrialResultPayload) (trialNumber : ℕ) (params : List (String × ℚ))
    (completed total : ℕ) (best : Option BestSnapshot) :
    ((sendTrialCompleteFrame trialNumber params payload (evaluate_trial cfg payload)
        completed total best).filterReasonsField = none ↔
      (sendTrialCompleteFrame trialNumber params payload (evaluate_trial cfg payload)
        completed total best).passedFiltersField = some true)
    ∧ ((sendTrialCompleteFrame trialNumber params payload (evaluate_trial cfg payload)
        completed total best).passedFiltersField = some false →
      ∃ l, (sendTrialCompleteFrame trialNumber params payload (evaluate_trial cfg payload)
        completed total best).filterReasonsField = some l ∧ l ≠ []) := by
  have hpr := evaluate_trial_passed_iff_reasons_nil cfg payload
  constructor
  · by_cases h : (evaluate_trial cfg payload).filter_reasons = []
    · simp [sendTrialCompleteFrame, OutFrame.filterReasonsField, OutFrame.passedFiltersField, h,
        hpr.mpr h]
    · have hfp : ¬(evaluate_trial cfg payload).filters_passed = true := fun hc => h (hpr.mp hc)
      simp only [Bool.not_eq_true] at hfp
      simp [sendTrialCompleteFrame, OutFrame.filterReasonsField, OutFrame.passedFiltersField, h,
        hfp, List.isEmpty_iff]
  · intro hfalse
    have hfp : (evaluate_trial cfg payload).filters_passed = false := by
      simpa [sendTrialCompleteFrame, OutFrame.passedFiltersField] using hfalse
    have h : (evaluate_trial cfg payload).filter_reasons ≠ [] := by
      intro hc
      rw [hpr.mpr hc] at hfp
      simp at hfp
    refine ⟨(evaluate_trial cfg payload).filter_reasons, ?_, h⟩
    simp [sendTrialCompleteFrame, OutFrame.filterReasonsField, List.isEmpty_iff, h]

/-! ### Session-loop lemmas -/

/-- A wait that ends in `OptimisationInterrupted` always leaves
`stop_requested` set (both the stop message and the disconnect set it). -/
theorem wait_interrupted_stop (n : ℕ) :
    ∀ (msgs : List InMsg) (stop s : Bool) (rest : List InMsg),
      waitForTrialResult n msgs stop = .interrupted rest s → s = true := by
  intro msgs
  induction msgs with
  | nil => intro stop s rest h; simp [waitForTrialResult] at h
  | cons m tl ih =>
    intro stop s rest h
    cases m with
    | trialResult k p =>
      rw [waitForTrialResult] at h
      by_cases hk : k = (n : ℤ)
      · simp [hk] at h
      · rw [if_neg hk] at h
        exact ih stop s rest h
    | stopMsg => simp [waitForTrialResult] at h; exact h.2
    | startMsg => simp [waitForTrialResult] at h
    | badMsg => simp [waitForTrialResult] at h
    | disconnect => simp [waitForTrialResult] at h; exact h.2

/-- One best-snapshot update never decreases the recorded metric. -/
theorem update_best_metric_mono (best : Option BestSnapshot) (trialNumber : ℕ)
    (params : List (String × ℚ)) (payload : TrialResultPayload) (ev : TrialEvaluation)
    (b0 : BestSnapshot) (h : best = some b0) :
    ∃ b1, update_best_snapshot best trialNumber params payload ev = some b1
      ∧ b0.metric ≤ b1.metric := by
  subst h
  cases hmv : ev.metric_value with
  | none => exact ⟨b0, by simp [update_best_snapshot, hmv], le_refl _⟩
  | some mv =>
    cases hfp : ev.filters_passed with
    | false => exact ⟨b0, by simp [update_best_snapshot, hmv, hfp], le_refl _⟩
    | true =>
      by_cases hlt : b0.metric < mv
      · exact ⟨⟨mv, trialNumber, params, payload.metrics⟩,
          by simp [update_best_snapshot, hmv, hfp, hlt], le_of_lt hlt⟩
      · exact ⟨b0, by simp [update_best_snapshot, hmv, hfp, hlt], le_refl _⟩

/-- Across any run of the optimisation loop the best snapshot's metric never
decreases. -/
theorem loop_best_mono (cfg : OptimisationConfig) (af : ℕ → Bool)
    (pr : ℕ → List (String × ℚ)) :
    ∀ (fuel ac : ℕ) (msgs : List InMsg) (st : SessState) (b0 : BestSnapshot),
      st.best = some b0 →
      ∃ b1, (optimiseLoop cfg af pr fuel ac msgs st).2.1.best = some b1
        ∧ b0.metric ≤ b1.metric := by
  intro fuel
  induction fuel with
  | zero =>
    intro ac msgs st b0 h
    exact ⟨b0, by simpa [optimiseLoop] using h, le_refl _⟩
  | succ k ih =>
    intro ac msgs st b0 h
    simp only [optimiseLoop]
    split
    · split
      · exact ⟨b0, by simpa using h, le_refl _⟩
      · split
        · exact ⟨b0, by simpa using h, le_refl _⟩
        · exact ⟨b0, by simpa using h, le_refl _⟩
        · exact ⟨b0, by simpa using h, le_refl _⟩
        · rename_i p rest stop heq
          obtain ⟨b1, hb1, hle1⟩ := update_best_metric_mono st.best ac (pr ac) p
            (evaluate_trial cfg p) b0 h
          obtain ⟨b2, hb2, hle2⟩ := ih (ac + 1) rest
            ⟨stop, st.completed + 1, update_best_snapshot st.best ac (pr ac) p (evaluate_trial cfg p)⟩
            b1 hb1
          exact ⟨b2, by simpa using hb2, le_trans hle1 hle2⟩
    · exact ⟨b0, by simpa using h, le_refl _⟩

/-- The completed counter never exceeds the trial budget. -/
theorem loop_completed_le (cfg : OptimisationConfig) (af : ℕ → Bool)
    (pr : ℕ → List (String × ℚ)) :
    ∀ (fuel ac : ℕ) (msgs : List InMsg) (st : SessState),
      st.completed ≤ cfg.settings.trials →
      (optimiseLoop cfg af pr fuel ac msgs st).2.1.completed ≤ cfg.settings.trials := by
  intro fuel
  induction fuel with
  | zero => intro ac msgs st h; simpa [optimiseLoop] using h
  | succ k ih =>
    intro ac msgs st h
    simp only [optimiseLoop]
    split
    · rename_i hcond
      split
      · simpa using h
      · split
        · simpa using h
        · simpa using h
        · simpa using h
        · rename_i p rest stop heq
          have : st.completed + 1 ≤ cfg.settings.trials := hcond.1
          simpa using ih (ac + 1) rest
            ⟨stop, st.completed + 1, update_best_snapshot st.best ac (pr ac) p (evaluate_trial cfg p)⟩
            this
    · simpa using h

/-- The loop never emits a `complete` frame. -/
theorem loop_frames_not_complete (cfg : OptimisationConfig) (af : ℕ → Bool)
    (pr : ℕ → List (String × ℚ)) :
    ∀ (fuel ac : ℕ) (msgs : List InMsg) (st : SessState) (f : OutFrame),
      f ∈ (optimiseLoop cfg af pr fuel ac msgs st).1 → f.kind ≠ FrameKind.complete := by
  intro fuel
  induction fuel with
  | zero => intro ac msgs st f hf; simp [optimiseLoop] at hf
  | succ k ih =>
    intro ac msgs st f hf
    rw [optimiseLoop] at hf
    split at hf
    · split at hf
      · simp at hf
        subst hf
        simp [OutFrame.kind]
      · split at hf
        · simp at hf
          subst hf
          simp [OutFrame.kind]
        · simp at hf
          subst hf
          simp [OutFrame.kind]
        · simp at hf
          subst hf
          simp [OutFrame.kind]
        · rename_i p rest stop heq
          simp only [List.mem_cons] at hf
          rcases hf with hf | hf | hf
          · subst hf; simp [OutFrame.kind]
          · subst hf; simp [sendTrialCompleteFrame, OutFrame.kind]
          · exact ih (ac + 1) rest _ f (by simpa using hf)
    · simp at hf

/-- Frames that are all non-`complete` count no `complete` frame. -/
theorem countP_complete_zero (frames : List OutFrame)
    (h : ∀ f ∈ frames, f.kind ≠ FrameKind.complete) :
    frames.countP isCompleteFrame = 0 := by
  rw [List.countP_eq_zero]
  intro f hf
  simp only [isCompleteFrame, decide_eq_true_eq]
  exact h f hf

/-- Frames that are all non-`complete` contribute no completion reason. -/
theorem completeReasons_nil (frames : List OutFrame)
    (h : ∀ f ∈ frames, f.kind ≠ FrameKind.complete) :
    completeReasons frames = [] := by
  rw [completeReasons, List.filterMap_eq_nil_iff]
  intro f hf
  have hk := h f hf
  cases f with
  | complete r b => exact absurd rfl hk
  | status m => rfl
  | error m => rfl
  | trialRequest n p => rfl
  | trialComplete a b c d e f g i j => rfl

/-- A loop run that exits normally, emits no error frame and ends without
`stop_requested` has exhausted the budget (given enough fuel). -/
theorem loop_finished (cfg : OptimisationConfig) (af : ℕ → Bool)
    (pr : ℕ → List (String × ℚ)) :
    ∀ (fuel ac : ℕ) (msgs : List InMsg) (st : SessState),
      cfg.settings.trials ≤ st.completed + fuel →
      (optimiseLoop cfg af pr fuel ac msgs st).2.2 = .normal →
      (optimiseLoop cfg af pr fuel ac msgs st).1.countP isErrorFrame = 0 →
      (optimiseLoop cfg af pr fuel ac msgs st).2.1.stop_requested = false →
      cfg.settings.trials ≤ (optimiseLoop cfg af pr fuel ac msgs st).2.1.completed := by
  intro fuel
  induction fuel with
  | zero =>
    intro ac msgs st hfuel _ _ _
    simpa [optimiseLoop] using hfuel
  | succ k ih =>
    intro ac msgs st hfuel
    simp only [optimiseLoop]
    split
    · rename_i hcond
      split
      · intro _ hcount _
        simp [List.countP_cons, isErrorFrame, OutFrame.kind] at hcount
      · split
        · intro hexit _ _
          simp at hexit
        · rename_i rest stop heq
          intro _ _ hstop
          have := wait_interrupted_stop ac msgs st.stop_requested stop rest heq
          simp at hstop
          rw [this] at hstop
          exact absurd hstop (by simp)
        · intro hexit _ _
          simp at hexit
        · rename_i p rest stop heq
          intro hexit hcount hstop
          have hfuel' : cfg.settings.trials ≤ (st.completed + 1) + k := by omega
          have hcount' :
              (optimiseLoop cfg af pr k (ac + 1) rest
                ⟨stop, st.completed + 1,
                  update_best_snapshot st.best ac (pr ac) p (evaluate_trial cfg p)⟩).1.countP
                isErrorFrame = 0 := by
            simpa [List.countP_cons, isErrorFrame, OutFrame.kind, sendTrialCompleteFrame]
              using hcount
          have hexit' := by simpa using hexit
          have hstop' := by simpa using hstop
          simpa using ih (ac + 1) rest
            ⟨stop, st.completed + 1,
              update_best_snapshot st.best ac (pr ac) p (evaluate_trial cfg p)⟩
            hfuel' hexit' hcount' hstop'
    · rename_i hcond
      intro _ _ hstop
      simp at hstop
      rcases Nat.lt_or_ge st.completed cfg.settings.trials with hlt | hge
      · exact absurd ⟨hlt, by simpa using hstop⟩ hcond
      · simpa using hge

/-! ### Claims about best-snapshot and session behaviour -/

/-- C2: best-snapshot maintenance.  The snapshot is untouched when the trial
fails a filter or lacks the target metric; with filters passed and a metric
value present it is replaced exactly when no best exists yet or the raw
metric value strictly exceeds the current best's metric; one update never
decreases the recorded metric, and across any run of the optimisation loop
the best metric never decreases. -/
theorem best_snapshot_spec (best : Option BestSnapshot) (trialNumber : ℕ)
    (params : List (String × ℚ)) (payload : TrialResultPayload) (ev : TrialEvaluation) :
    (ev.filters_passed = false ∨ ev.metric_value = none →
      update_best_snapshot best trialNumber params payload ev = best)
    ∧ (∀ v, ev.metric_value = some v → ev.filters_passed = true →
        (best = none →
          update_best_snapshot best trialNumber params payload ev
            = some ⟨v, trialNumber, params, payload.metrics⟩)
        ∧ (∀ b, best = some b → b.metric < v →
            update_best_snapshot best trialNumber params payload ev
              = some ⟨v, trialNumber, params, payload.metrics⟩)
        ∧ (∀ b, best = some b → v ≤ b.metric →
            update_best_snapshot best trialNumber params payload ev = best))
    ∧ (∀ b0, best = some b0 →
        ∃ b1, update_best_snapshot best trialNumber params payload ev = some b1
          ∧ b0.metric ≤ b1.metric)
    ∧ (∀ (cfg : OptimisationConfig) (af : ℕ → Bool) (pr : ℕ → List (String × ℚ))
        (fuel ac : ℕ) (msgs : List InMsg) (st : SessState) (b0 : BestSnapshot),
        st.best = some b0 →
        ∃ b1, (optimiseLoop cfg af pr fuel ac msgs st).2.1.best = some b1
          ∧ b0.metric ≤ b1.metric) := by
  refine ⟨?_, ?_, ?_, ?_⟩
  · rintro (h | h)
    · cases hmv : ev.metric_value <;> simp [update_best_snapshot, hmv, h]
    · simp [update_best_snapshot, h]
  · intro v hmv hfp
    refine ⟨?_, ?_, ?_⟩
    · intro hb; simp [update_best_snapshot, hmv, hfp, hb]
    · intro b hb hlt; simp [update_best_snapshot, hmv, hfp, hb, hlt]
    · intro b hb hle; simp [update_best_snapshot, hmv, hfp, hb, not_lt.mpr hle]
  · intro b0 h
    exact update_best_metric_mono best trialNumber params payload ev b0 h
  · intro cfg af pr fuel ac msgs st b0 h
    exact loop_best_mono cfg af pr fuel ac msgs st b0 h

/-- C3 (amended): the completed counter never exceeds `settings.trials`
(from any intermediate state too); and when the terminal `complete` frame
carries reason `finished`, either the whole budget was run, or the loop was
cut short by a sampler failure / an empty distribution set (an error frame
was emitted), or it was aborted by a protocol-error exception. -/
theorem budget_honored (cfg : OptimisationConfig) (af : ℕ → Bool)
    (pr : ℕ → List (String × ℚ)) (msgs : List InMsg) :
    (runSessionFull (.valid cfg) af pr msgs).final.completed ≤ cfg.settings.trials
    ∧ (∀ (fuel ac : ℕ) (msgs2 : List InMsg) (st : SessState),
        st.completed ≤ cfg.settings.trials →
        (optimiseLoop cfg af pr fuel ac msgs2 st).2.1.completed ≤ cfg.settings.trials)
    ∧ ("finished" ∈ completeReasons (runSessionFull (.valid cfg) af pr msgs).frames →
        (runSessionFull (.valid cfg) af pr msgs).final.completed = cfg.settings.trials
        ∨ (runSessionFull (.valid cfg) af pr msgs).frames.countP isErrorFrame ≠ 0
        ∨ (runSessionFull (.valid cfg) af pr msgs).exit = .exn) := by
  have hnotc : ∀ f ∈ (optimiseLoop cfg af pr cfg.settings.trials 0 msgs initState).1,
      f.kind ≠ FrameKind.complete :=
    fun f hf => loop_frames_not_complete cfg af pr cfg.settings.trials 0 msgs initState f hf
  have hnil := completeReasons_nil
    (optimiseLoop cfg af pr cfg.settings.trials 0 msgs initState).1 hnotc
  refine ⟨?_, fun fuel ac msgs2 st h => loop_completed_le cfg af pr fuel ac msgs2 st h, ?_⟩
  · simp only [runSessionFull]
    split
    · exact Nat.zero_le _
    · split
      · exact loop_completed_le cfg af pr _ 0 msgs initState (Nat.zero_le _)
      · exact loop_completed_le cfg af pr _ 0 msgs initState (Nat.zero_le _)
  · simp only [runSessionFull]
    split
    · intro _
      right; left
      simp [List.countP_cons, isErrorFrame, OutFrame.kind]
    · split
      · rename_i hne hhang
        intro hmem
        rw [completeReasons] at hnil
        simp only [completeReasons, List.filterMap_cons] at hmem
        simp [hnil] at hmem
      · rename_i hne hhang
        intro hmem
        by_cases hexn : (optimiseLoop cfg af pr cfg.settings.trials 0 msgs initState).2.2 = .exn
        · right; right; simpa using hexn
        · by_cases herr :
            (optimiseLoop cfg af pr cfg.settings.trials 0 msgs initState).1.countP isErrorFrame = 0
          · left
            have hreason : (if (optimiseLoop cfg af pr cfg.settings.trials 0 msgs
                initState).2.1.stop_requested then "stopped" else "finished") = "finished" := by
              rw [completeReasons] at hnil
              simp only [completeReasons, List.filterMap_cons, List.filterMap_append] at hmem
              simp [hnil] at hmem
              simpa using hmem.symm
            have hstop : (optimiseLoop cfg af pr cfg.settings.trials 0 msgs
                initState).2.1.stop_requested = false := by
              by_cases hs : (optimiseLoop cfg af pr cfg.settings.trials 0 msgs
                  initState).2.1.stop_requested
              · rw [if_pos hs] at hreason; simp at hreason
              · simpa using hs
            have hexit : (optimiseLoop cfg af pr cfg.settings.trials 0 msgs
                initState).2.2 = .normal := by
              rcases hx : (optimiseLoop cfg af pr cfg.settings.trials 0 msgs initState).2.2 with
                _ | _ | _
              · rfl
              · exact absurd hx hexn
              · exact absurd hx hhang
            have hge := loop_finished cfg af pr cfg.settings.trials 0 msgs initState
              (by simp [initState]) hexit herr hstop
            have hle := loop_completed_le cfg af pr cfg.settings.trials 0 msgs initState
              (Nat.zero_le _)
            simpa using le_antisymm hle hge
          · right; left
            intro hc
            apply herr
            simpa [List.countP_cons, List.countP_append, isErrorFrame, OutFrame.kind] using hc

/-- C4 (amended): a session emits at most one `complete` frame; a channel
that never closes (the loop hangs awaiting a message) has emitted none; a
session with a valid start that closes emits exactly one `complete`, as its
final frame, with reason `finished` or `stopped` (error frames may precede
it); an invalid start yields a single error frame and no `complete`; a
disconnect before `start` yields no frame at all. -/
theorem terminal_frame_spec (so : StartOutcome) (af : ℕ → Bool)
    (pr : ℕ → List (String × ℚ)) (msgs : List InMsg) :
    (runSessionFull so af pr msgs).frames.countP isCompleteFrame ≤ 1
    ∧ ((runSessionFull so af pr msgs).closed = false →
        (runSessionFull so af pr msgs).frames.countP isCompleteFrame = 0)
    ∧ (∀ cfg, so = .valid cfg → (runSessionFull so af pr msgs).closed = true →
        ∃ reason pre, (reason = "finished" ∨ reason = "stopped")
          ∧ (runSessionFull so af pr msgs).frames
              = pre ++ [.complete reason (runSessionFull so af pr msgs).final.best]
          ∧ pre.countP isCompleteFrame = 0)
    ∧ (∀ m, so = .invalid m → (runSessionFull so af pr msgs).frames = [.error m])
    ∧ (so = .disconnected → (runSessionFull so af pr msgs).frames = []) := by
  cases so with
  | disconnected =>
    refine ⟨by simp [runSessionFull], by simp [runSessionFull], ?_, ?_, by simp [runSessionFull]⟩
    · intro cfg h; exact absurd h (by simp)
    · intro m h; exact absurd h (by simp)
  | invalid m =>
    refine ⟨?_, ?_, ?_, ?_, ?_⟩
    · simp [runSessionFull, List.countP_cons, isCompleteFrame, OutFrame.kind]
    · intro h; simp [runSessionFull] at h
    · intro cfg h; exact absurd h (by simp)
    · intro m' h
      have : m' = m := by injection h.symm
      subst this
      simp [runSessionFull]
    · intro h; exact absurd h (by simp)
  | valid cfg =>
    have hnotc : ∀ f ∈ (optimiseLoop cfg af pr cfg.settings.trials 0 msgs initState).1,
        f.kind ≠ FrameKind.complete :=
      fun f hf => loop_frames_not_complete cfg af pr cfg.settings.trials 0 msgs initState f hf
    have hzero := countP_complete_zero
      (optimiseLoop cfg af pr cfg.settings.trials 0 msgs initState).1 hnotc
    refine ⟨?_, ?_, ?_, ?_, ?_⟩
    · simp only [runSessionFull]
      split
      · simp [List.countP_cons, isCompleteFrame, OutFrame.kind]
      · split
        · simp only [List.countP_cons, isCompleteFrame, OutFrame.kind]
          simp [hzero]
        · simp only [List.countP_cons, List.countP_append, isCompleteFrame, OutFrame.kind]
          simp [hzero]
    · simp only [runSessionFull]
      split
      · intro h; simp at h
      · split
        · intro _
          simp only [List.countP_cons, isCompleteFrame, OutFrame.kind]
          simp [hzero]
        · intro h; simp at h
    · intro cfg2 hcfg
      simp only [runSessionFull]
      split
      · intro _
        refine ⟨"finished", [.status "Configuration received",
          .error "No numerical parameters available for optimisation."], Or.inl rfl, ?_, ?_⟩
        · simp [initState]
        · simp [List.countP_cons, isCompleteFrame, OutFrame.kind]
      · split
        · intro h; simp at h
        · intro _
          refine ⟨(if (optimiseLoop cfg af pr cfg.settings.trials 0 msgs
                initState).2.1.stop_requested then "stopped" else "finished"),
              .status "Configuration received"
                :: (optimiseLoop cfg af pr cfg.settings.trials 0 msgs initState).1, ?_, ?_, ?_⟩
          · by_cases hs : (optimiseLoop cfg af pr cfg.settings.trials 0 msgs
                initState).2.1.stop_requested
            · right; simp [hs]
            · left; simp [hs]
          · simp
          · simp only [List.countP_cons, isCompleteFrame, OutFrame.kind]
            simp [hzero]
    · intro m h; exact absurd h (by simp)
    · intro h; exact absurd h (by simp)

/-- C6: while awaiting the result of trial `n`, a `trial-result` whose
number differs is skipped with the wait (and the whole loop) otherwise
unchanged, and the matching `trial-result` ends the wait with that message's
payload and the state untouched. -/
theorem out_of_sync_result_ignored (n : ℕ) (m : ℤ) (p : TrialResultPayload)
    (rest : List InMsg) (stop : Bool) (cfg : OptimisationConfig) (af : ℕ → Bool)
    (pr : ℕ → List (String × ℚ)) (fuel ac : ℕ) (st : SessState) :
    (m ≠ (n : ℤ) →
      waitForTrialResult n (.trialResult m p :: rest) stop = waitForTrialResult n rest stop)
    ∧ waitForTrialResult n (.trialResult (n : ℤ) p :: rest) stop = .result p rest stop
    ∧ (m ≠ (ac : ℤ) →
        optimiseLoop cfg af pr fuel ac (.trialResult m p :: rest) st
          = optimiseLoop cfg af pr fuel ac rest st) := by
  refine ⟨?_, ?_, ?_⟩
  · intro h
    simp [waitForTrialResult, h]
  · simp [waitForTrialResult]
  · intro h
    cases fuel with
    | zero => rfl
    | succ k =>
      simp only [optimiseLoop]
      rw [show waitForTrialResult ac (.trialResult m p :: rest) st.stop_requested
          = waitForTrialResult ac rest st.stop_requested by simp [waitForTrialResult, h]]

/-! ### Concrete sessions exercising the terminal-frame behaviour -/

/-- A configuration with one enabled float parameter and a budget of two
trials, no filters. -/
def cfgFloat2 : OptimisationConfig :=
  ⟨"strategy", [⟨"x", none, .float, true, ⟨0, 10, none⟩⟩],
    ⟨.netProfit, 2, false, none, none, []⟩⟩

/-- A configuration whose only parameter is a boolean, so
`_build_distributions` returns no distribution. -/
def cfgNoNum : OptimisationConfig :=
  ⟨"strategy", [⟨"mode", none, .bool, true, ⟨0, 1, none⟩⟩],
    ⟨.netProfit, 1, false, none, none, []⟩⟩

/-- C3 counterexample: a session whose first `study.ask` raises ends with
`complete{reason:"finished"}` after zero completed trials although the
budget is two, refuting `reason = finished → completed = trials`. -/
theorem budget_counterexample :
    completeReasons (runSessionFull (.valid cfgFloat2) (fun _ => true) (fun _ => []) []).frames
        = ["finished"]
    ∧ (runSessionFull (.valid cfgFloat2) (fun _ => true) (fun _ => []) []).final.completed = 0
    ∧ cfgFloat2.settings.trials = 2 := by
  refine ⟨rfl, rfl, rfl⟩

/-- C4 counterexample: a session with a valid start but no numeric parameter
emits an error frame and then a `complete` frame, refuting "either a single
complete, or a single error followed by no complete". -/
theorem terminal_frame_counterexample :
    (runSessionFull (.valid cfgNoNum) (fun _ => false) (fun _ => []) []).frames.map OutFrame.kind
        = [.status, .error, .complete]
    ∧ completeReasons (runSessionFull (.valid cfgNoNum) (fun _ => false) (fun _ => []) []).frames
        = ["finished"] := by
  refine ⟨rfl, rfl⟩

/-- C5: a second `start` while the session awaits a trial result.  The model
run shows the `ValueError` escaping the loop (`exit = .exn`): no error frame
is ever sent to the client — the only frames are the status, the trial
request and the `finally`-emitted `complete{reason:"finished"}` — contrary
to the claim that the server replies with an error message. -/
theorem duplicate_start_no_error_reply :
    (runSessionFull (.valid cfgFloat2) (fun _ => false) (fun _ => []) [.startMsg]).exit = .exn
    ∧ (runSessionFull (.valid cfgFloat2) (fun _ => false) (fun _ => [])
        [.startMsg]).frames.map OutFrame.kind = [.status, .trialRequest, .complete]
    ∧ completeReasons (runSessionFull (.valid cfgFloat2) (fun _ => false) (fun _ => [])
        [.startMsg]).frames = ["finished"]
    ∧ (runSessionFull (.valid cfgFloat2) (fun _ => false) (fun _ => [])
        [.startMsg]).frames.countP isErrorFrame = 0 := by
  refine ⟨rfl, rfl, rfl, rfl⟩

/-! ### Pareto-front lemmas and claims -/

/-- One `update_pareto_front` call preserves the antichain property. -/
theorem update_pareto_front_antichain (tms : List String) (w : String → Option ℚ)
    (front : List Solution) (params : List (String × ℚ)) (metrics : String → Option ℚ)
    (h : ParetoAntichain tms front) :
    ParetoAntichain tms (update_pareto_front tms w front params metrics) := by
  have hsymm : ∀ {x y : Solution},
      (dominates tms x.metrics y.metrics = false ∧ dominates tms y.metrics x.metrics = false) →
      dominates tms y.metrics x.metrics = false ∧ dominates tms x.metrics y.metrics = false :=
    fun hxy => ⟨hxy.2, hxy.1⟩
  simp only [update_pareto_front]
  split
  · exact h
  · rename_i hany
    have hany' : ∀ e ∈ front, dominates tms e.metrics metrics = false := by
      have h0 : front.any (fun e => dominates tms e.metrics metrics) = false := by
        simpa using hany
      rw [List.any_eq_false] at h0
      intro e he
      simpa using h0 e he
    have hpruned : ParetoAntichain tms
        (front.filter fun e => !dominates tms metrics e.metrics) :=
      List.Pairwise.sublist (List.filter_sublist front) h
    have hf2 : ParetoAntichain tms ((front.filter fun e => !dominates tms metrics e.metrics)
        ++ [⟨params, metrics, scalarize_objectives tms w metrics⟩]) := by
      rw [ParetoAntichain, List.pairwise_append]
      refine ⟨hpruned, List.pairwise_singleton _ _, ?_⟩
      intro a ha b hb
      simp only [List.mem_singleton] at hb
      subst hb
      refine ⟨hany' a (List.mem_filter.mp ha).1, ?_⟩
      simpa using (List.mem_filter.mp ha).2
    split
    · have hperm := List.mergeSort_perm
        ((front.filter fun e => !dominates tms metrics e.metrics)
          ++ [⟨params, metrics, scalarize_objectives tms w metrics⟩])
        (fun a b => decide (b.scalarized_value ≤ a.scalarized_value))
      have hms := (hperm.pairwise_iff hsymm).mpr hf2
      exact List.Pairwise.sublist (List.take_sublist _ _) hms
    · exact hf2

/-- One `update_pareto_front` call keeps the front within 20 entries. -/
theorem update_pareto_front_length (tms : List String) (w : String → Option ℚ)
    (front : List Solution) (params : List (String × ℚ)) (metrics : String → Option ℚ)
    (h : front.length ≤ 20) :
    (update_pareto_front tms w front params metrics).length ≤ 20 := by
  simp only [update_pareto_front]
  split
  · exact h
  · split
    · simp [List.length_take]
    · rename_i hlen
      exact Nat.le_of_not_lt hlen

/-- C7: after every sequence of `update_pareto_front` calls from the
optimizer's initial empty front, the Pareto front is an antichain under the
`_dominates` relation over the declared target metrics (no element of the
front dominates another), and it holds at most 20 solutions. -/
theorem pareto_front_invariant (tms : List String) (w : String → Option ℚ)
    (inputs : List (List (String × ℚ) × (String → Option ℚ))) :
    ParetoAntichain tms (runParetoUpdates tms w inputs)
    ∧ (runParetoUpdates tms w inputs).length ≤ 20 := by
  have key : ∀ (l : List (List (String × ℚ) × (String → Option ℚ))) (front : List Solution),
      ParetoAntichain tms front → front.length ≤ 20 →
      ParetoAntichain tms
        (l.foldl (fun fr inp => update_pareto_front tms w fr inp.1 inp.2) front)
      ∧ (l.foldl (fun fr inp => update_pareto_front tms w fr inp.1 inp.2) front).length ≤ 20 := by
    intro l
    induction l with
    | nil => intro front h1 h2; simpa using ⟨h1, h2⟩
    | cons a tl ih =>
      intro front h1 h2
      simp only [List.foldl_cons]
      exact ih _ (update_pareto_front_antichain tms w front a.1 a.2 h1)
        (update_pareto_front_length tms w front a.1 a.2 h2)
  have h0 : ParetoAntichain tms ([] : List Solution) := List.Pairwise.nil
  have := key inputs [] h0 (by simp)
  simpa [runParetoUpdates] using this

/-! ### Encode/decode round-trip lemmas and claim -/

/-- Decoding the encoded position of category index `i` (out of `n`) recovers
`i`: the scaled, clipped, truncated index equals the encoded index. -/
theorem decode_encode_index (n i : ℕ) (hin : i < n) (lo hi : ℚ) (hlt : lo < hi) :
    pyInt (npClip ((((lo + (if 1 < n then (i : ℚ) / ((n : ℚ) - 1) else 1/2) * (hi - lo)) - lo)
        / (hi - lo)) * (n : ℚ)) 0 ((n : ℚ) - 1)) = (i : ℤ) := by
  have hne : hi - lo ≠ 0 := sub_ne_zero.mpr (ne_of_gt hlt)
  have hx : (((lo + (if 1 < n then (i : ℚ) / ((n : ℚ) - 1) else 1/2) * (hi - lo)) - lo)
      / (hi - lo)) = (if 1 < n then (i : ℚ) / ((n : ℚ) - 1) else 1/2) := by
    field_simp
  rw [hx]
  by_cases h1 : 1 < n
  · rw [if_pos h1]
    have hn1 : (0:ℚ) < (n:ℚ) - 1 := by
      have : (1:ℚ) < (n:ℚ) := by exact_mod_cast h1
      linarith
    rcases Nat.lt_or_ge i (n - 1) with hi1 | hi2
    · have hi1' : (i:ℚ) + 1 < (n:ℚ) := by
        have h2 : i + 1 < n := by omega
        exact_mod_cast h2
      have hi0 : (0:ℚ) ≤ (i:ℚ) := by positivity
      have hxlo : (i:ℚ) ≤ (i:ℚ) / ((n:ℚ) - 1) * (n:ℚ) := by
        rw [div_mul_eq_mul_div, le_div_iff₀ hn1]
        nlinarith
      have hxhi : (i:ℚ) / ((n:ℚ) - 1) * (n:ℚ) < (i:ℚ) + 1 := by
        rw [div_mul_eq_mul_div, div_lt_iff₀ hn1]
        nlinarith
      have hclip : npClip ((i:ℚ) / ((n:ℚ) - 1) * (n:ℚ)) 0 ((n:ℚ) - 1)
          = (i:ℚ) / ((n:ℚ) - 1) * (n:ℚ) := by
        have hi2' : (i:ℚ) + 2 ≤ (n:ℚ) := by
          have h3 : i + 2 ≤ n := by omega
          exact_mod_cast h3
        rw [npClip, max_eq_left (le_trans hi0 hxlo)]
        exact min_eq_left (by linarith)
      rw [hclip, pyInt, if_pos (le_trans hi0 hxlo)]
      rw [Int.floor_eq_iff]
      constructor
      · push_cast
        exact hxlo
      · push_cast
        exact hxhi
    · have hieq : i = n - 1 := by omega
      subst hieq
      have hn0 : 1 ≤ n := by omega
      have hcast : ((n - 1 : ℕ) : ℚ) = (n:ℚ) - 1 := by
        push_cast [hn0]
        ring
      rw [hcast]
      have hdiv : ((n:ℚ) - 1) / ((n:ℚ) - 1) * (n:ℚ) = (n:ℚ) := by
        field_simp
      rw [hdiv]
      have hclip : npClip (n:ℚ) 0 ((n:ℚ) - 1) = (n:ℚ) - 1 := by
        rw [npClip, max_eq_left (by positivity), min_eq_right (by linarith)]
      rw [hclip, pyInt, if_pos (by linarith)]
      rw [Int.floor_eq_iff]
      constructor
      · push_cast [hn0]
        ring_nf
        exact le_refl _
      · push_cast [hn0]
        linarith
  · rw [if_neg h1]
    have hn1 : n = 1 := by omega
    have hi0 : i = 0 := by omega
    subst hn1
    subst hi0
    norm_num [npClip, pyInt]

/-- C8: for a categorical or ordinal parameter with category list `cats`,
bounds `lo < hi` and any label in the list, encoding the label with
`reverse_parameter_encoding` and decoding the resulting continuous value
with `handle_parameter_types` returns the same label. -/
theorem categorical_roundtrip (parameter_types : String → Option String)
    (categorical_mappings : String → Option (List String))
    (pbounds : String → Option (ℚ × ℚ)) (name : String) (cats : List String)
    (lo hi : ℚ) (label : String)
    (htype : parameter_types name = some "categorical" ∨ parameter_types name = some "ordinal")
    (hmap : categorical_mappings name = some cats)
    (hbounds : pbounds name = some (lo, hi))
    (hlt : lo < hi) (hmem : label ∈ cats) :
    ∃ x, reverse_parameter_encoding [(name, .str label)] parameter_types categorical_mappings
          pbounds = some [(name, x)]
      ∧ handle_parameter_types [(name, x)] parameter_types categorical_mappings pbounds
          = some [(name, .str label)] := by
  have hne : ¬(hi - lo = 0) := sub_ne_zero.mpr (ne_of_gt hlt)
  have hilen : cats.indexOf label < cats.length := List.indexOf_lt_length.mpr hmem
  obtain ⟨x, hxdef⟩ : ∃ x, x = lo + (if 1 < cats.length then
      ((cats.indexOf label : ℕ) : ℚ) / ((cats.length : ℚ) - 1) else 1/2) * (hi - lo) := ⟨_, rfl⟩
  have hidx : pyInt (npClip ((x - lo) / (hi - lo) * (cats.length : ℚ)) 0
      ((cats.length : ℚ) - 1)) = ((cats.indexOf label : ℕ) : ℤ) := by
    rw [hxdef]
    exact decode_encode_index cats.length (cats.indexOf label) hilen lo hi hlt
  have hget : cats[cats.indexOf label]? = some label := by
    rw [List.getElem?_eq_getElem hilen, List.getElem_indexOf hilen]
  refine ⟨x, ?_, ?_⟩
  · rw [hxdef]
    rcases htype with ht | ht <;>
      simp [reverse_parameter_encoding, reverseParam, ht, hmap, hbounds, hmem]
  · rcases htype with ht | ht <;>
      simp [handle_parameter_types, processParam, ht, hmap, hbounds, hne, pyIndex, hidx, hget]

/-- Parameter-type table of the concrete round-trip instance. -/
def wPtypes : String → Option String :=
  fun s => if s = "mode" then some "categorical" else none

/-- Categorical mapping of the concrete round-trip instance. -/
def wCmaps : String → Option (List String) :=
  fun s => if s = "mode" then some ["a", "b", "c"] else none

/-- Bounds table of the concrete round-trip instance. -/
def wPbounds : String → Option (ℚ × ℚ) :=
  fun s => if s = "mode" then some (0, 1) else none

/-- C8 witness: the round trip at a concrete categorical parameter
`mode ∈ ["a","b","c"]` over `[0,1]`, label `"b"`. -/
theorem categorical_roundtrip_witness :
    ∃ x, reverse_parameter_encoding [("mode", .str "b")] wPtypes wCmaps wPbounds
        = some [("mode", x)]
      ∧ handle_parameter_types [("mode", x)] wPtypes wCmaps wPbounds
        = some [("mode", .str "b")] :=
  categorical_roundtrip wPtypes wCmaps wPbounds "mode" ["a", "b", "c"] 0 1 "b"
    (Or.inl (by simp [wPtypes])) (by simp [wCmaps]) (by simp [wPbounds])
    (by norm_num) (by simp)

/-! ### Concrete evaluation of the objective builder (spec scenario S2) -/

/-- Three trials, filter `win-rate ≥ 60`. -/
def cfgS2 : OptimisationConfig :=
  ⟨"strategy", [⟨"x", none, .float, true, ⟨0, 10, none⟩⟩],
    ⟨.netProfit, 3, false, none, none, [⟨.winRate, .gte, 60⟩]⟩⟩

/-- A result with `netProfit = 120` but `winRatePct = 40`. -/
def pmS2 : TrialResultPayload :=
  ⟨fun s => if s = "netProfit" then some 120 else if s = "winRatePct" then some 40 else none,
    none⟩

/-- Scenario S2 step: the filter rejects the trial, the objective is the
penalty, and the trial never becomes the best snapshot. -/
theorem sanity_filter_reject :
    (evaluate_trial cfgS2 pmS2).filters_passed = false
    ∧ (evaluate_trial cfgS2 pmS2).objective = PENALTY_SCORE
    ∧ (evaluate_trial cfgS2 pmS2).metric_value = some 120
    ∧ update_best_snapshot none 0 [] pmS2 (evaluate_trial cfgS2 pmS2) = none := by
  refine ⟨rfl, rfl, rfl, rfl⟩
